import Mathlib

/-
Shallow embedding of the Model persistence engine of ts-tiny-activerecord.

The authoritative source is src/src/model.ts together with src/src/types.ts
(FieldSpec, GlobalSpec), src/src/adapter.ts and the sqlite adapter in
src/test/sqlite-adapter.ts.  Entities hold an untyped record of field
values (a JavaScript object), a Set of changed field names, a persisted
flag and an optional identifier.  We embed the record as an association
list from field name to value with JavaScript object-assignment semantics
(overwrite in place, append new keys), and the Set of changed fields as a
duplicate-free list with insertion order.
-/

/-- Values stored in entity fields.  A small concrete universe is enough:
the engine never inspects values, it only moves them around. -/
inductive Value where
  | vstr (s : String)
  | vnat (n : Nat)
  | vbool (b : Bool)
deriving DecidableEq, Repr

/-- Embedding of the ValueEncoder interface of src/src/types.ts: a pair of
functions between the in-memory and the at-rest representation. -/
structure ValueEncoder where
  encode : Value → Value
  decode : Value → Value

/-- Embedding of FieldSpec of src/src/types.ts: optional persist policy and
optional encoder. -/
structure FieldSpec where
  persist : Option Bool := none
  encoder : Option ValueEncoder := none

/-- Field spec registry: the fieldSpecs map of PersistenceInfo.  An absent
registry is embedded as the empty list. -/
def FieldSpecs := List (String × FieldSpec)

/-- Lookup of fieldSpecs[field] (TypeScript optional chaining collapses an
absent registry and an absent entry to undefined, here none). -/
def lookupSpec (ps : List (String × FieldSpec)) (f : String) : Option FieldSpec :=
  (ps.find? (fun p => p.1 == f)).map Prod.snd

/-- Embedding of the expression fieldSpecs?.[field]?.persist. -/
def persistOf (ps : List (String × FieldSpec)) (f : String) : Option Bool :=
  (lookupSpec ps f).bind FieldSpec.persist

/-- JavaScript object property write, data[key] = value: overwrite the
binding in place when the key exists, append it otherwise. -/
def objSet : List (String × Value) → String → Value → List (String × Value)
  | [], k, v => [(k, v)]
  | (k1, v1) :: rest, k, v =>
    if k1 = k then (k, v) :: rest else (k1, v1) :: objSet rest k v

/-- JavaScript object property read, data[key]. -/
def objGet (l : List (String × Value)) (k : String) : Option Value :=
  (l.find? (fun p => p.1 == k)).map Prod.snd

/-- JavaScript Set.add: a no-op when the element is present, append
otherwise (Sets preserve insertion order). -/
def setAdd (s : List String) (f : String) : List String :=
  if f ∈ s then s else s ++ [f]

/-- State of a Model instance (src/src/model.ts): the data record, the
changedFields set, the persisted flag and the optional id property. -/
structure ModelState where
  data : List (String × Value)
  changedFields : List String
  persisted : Bool
  id : Option Value
deriving DecidableEq, Repr

/-- Embedding of Model.getChangedFields: Array.from of the Set. -/
def Model.getChangedFields (m : ModelState) : List String :=
  m.changedFields

/-- Embedding of Model.clearChangedFields. -/
def Model.clearChangedFields (m : ModelState) : ModelState :=
  { m with changedFields := [] }

/-- Embedding of Model.markChanged. -/
def Model.markChanged (m : ModelState) (f : String) : ModelState :=
  { m with changedFields := setAdd m.changedFields f }

/-- Embedding of Model.markUnchanged (Set.delete). -/
def Model.markUnchanged (m : ModelState) (f : String) : ModelState :=
  { m with changedFields := m.changedFields.filter (fun g => !(g == f)) }

/-- Embedding of Model.get. -/
def Model.get (m : ModelState) (k : String) : Option Value :=
  objGet m.data k

/-- Embedding of the single-key branch of Model.set: write the value and
add the key to changedFields. -/
def Model.set (m : ModelState) (k : String) (v : Value) : ModelState :=
  { m with data := objSet m.data k v, changedFields := setAdd m.changedFields k }

/-- Embedding of the partial-map branch of Model.set: spread the changes
over data and add every key of the changes to changedFields. -/
def Model.setMany (m : ModelState) (changes : List (String × Value)) : ModelState :=
  { m with
    data := changes.foldl (fun d p => objSet d p.1 p.2) m.data,
    changedFields := changes.foldl (fun s p => setAdd s p.1) m.changedFields }

/-- Embedding of the single-key branch of Model.put: write the value
without touching changedFields. -/
def Model.put (m : ModelState) (k : String) (v : Value) : ModelState :=
  { m with data := objSet m.data k v }

/-- Embedding of the partial-map branch of Model.put. -/
def Model.putMany (m : ModelState) (changes : List (String × Value)) : ModelState :=
  { m with data := changes.foldl (fun d p => objSet d p.1 p.2) m.data }

/-- Embedding of the Model constructor: this.id = data.id, then the id key
is removed by destructuring; when persisted the rest is stored directly,
otherwise it goes through this.set (the partial-map branch) on the empty
initial record. -/
def Model.construct (input : List (String × Value)) (persisted : Bool) : ModelState :=
  let i := objGet input "id"
  let rest := input.filter (fun p => !(p.1 == "id"))
  if persisted then
    { data := rest, changedFields := [], persisted := true, id := i }
  else
    Model.setMany { data := [], changedFields := [], persisted := false, id := i } rest

/-- Result record returned by the storage adapter (SaveResult of
src/src/adapter.ts, legacy saveToDb shape): success, inserted, optional id. -/
structure SaveResult where
  success : Bool
  inserted : Bool
  id : Option Value
deriving DecidableEq, Repr

/-- Lifecycle hook set of GlobalSpec (src/src/types.ts).  Each hook is an
arbitrary transformation of the entity; it stands for both in-place
mutation of the model and the returned replacement. -/
structure GlobalSpec where
  preSave : Option (ModelState → ModelState) := none
  postSave : Option (ModelState → ModelState) := none
  postLoad : Option (ModelState → ModelState) := none

/-- Execution trace of one Model.save call.  result is the returned model
or the thrown error message; getContextCalls counts adapter.getContext
calls; dispatched records every adapter.saveToDb call with the model and
the field list it received; hooks records hook invocations in order;
savedState is the engine state right after the success bookkeeping
(persisted := true, changedFields cleared), before any postSave hook,
and none when the call threw; entity is the state of this when the call
terminates, the postSave result included. -/
structure SaveTrace where
  result : Except String ModelState
  getContextCalls : Nat
  dispatched : List (ModelState × List String)
  hooks : List String
  savedState : Option ModelState
  entity : ModelState

/-- Embedding of line 176 of src/src/model.ts: the field list handed to
the adapter is this.getChangedFields() filtered by
fieldSpecs?.[field]?.persist !== false. -/
def outboundFields (ps : List (String × FieldSpec)) (m : ModelState) : List String :=
  (Model.getChangedFields m).filter (fun f => decide (persistOf ps f ≠ some false))

/-- Embedding of Model.save (src/src/model.ts lines 174-193).  The field
list is the changed fields with fieldSpecs?.[field]?.persist !== false;
when the model is persisted and the list is empty the call returns this
at once; otherwise it acquires a context, dispatches saveToDb, throws on
failure, adopts the returned id when inserted, marks persisted, clears
changedFields and runs postSave when configured.  No preSave hook and no
encoder application appear anywhere in the source of this function. -/
def Model.save (ps : List (String × FieldSpec)) (gs : GlobalSpec)
    (adapter : ModelState → List String → SaveResult) (m : ModelState) : SaveTrace :=
  let fields := outboundFields ps m
  if m.persisted && fields.isEmpty then
    { result := .ok m, getContextCalls := 0, dispatched := [], hooks := [],
      savedState := some m, entity := m }
  else
    let r := adapter m fields
    if !r.success then
      { result := .error "Failed to save model to database", getContextCalls := 1,
        dispatched := [(m, fields)], hooks := [], savedState := none, entity := m }
    else
      let m1 := if r.inserted then { m with id := r.id } else m
      let m2 := { m1 with persisted := true, changedFields := [] }
      match gs.postSave with
      | some h =>
        { result := .ok (h m2), getContextCalls := 1, dispatched := [(m, fields)],
          hooks := ["postSave"], savedState := some m2, entity := h m2 }
      | none =>
        { result := .ok m2, getContextCalls := 1, dispatched := [(m, fields)],
          hooks := [], savedState := some m2, entity := m2 }

/-- Embedding of the static Model.load (src/src/model.ts lines 130-144):
fetch the raw row by id, return none when absent, otherwise construct the
entity directly from the raw row with persisted = true and run postLoad
when configured.  The construction does not consult the field spec
registry: no column is dropped and no decoder is applied. -/
def Model.load (gs : GlobalSpec) (getFromDb : Value → Option (List (String × Value)))
    (i : Value) : Option ModelState :=
  match getFromDb i with
  | none => none
  | some row =>
    let m := Model.construct row true
    match gs.postLoad with
    | some h => some (h m)
    | none => some m

/-- Embedding of the per-field body of the static Model.fromRow
(src/src/model.ts lines 152-167): keep a row column unless its spec
declares persist = false, applying decode when an encoder is declared.
In the source this helper is dead code: load never calls it, and its
persistence lookup through this.constructor would not even resolve. -/
def fromRowData (ps : List (String × FieldSpec)) (row : List (String × Value)) :
    List (String × Value) :=
  row.foldl
    (fun d p =>
      let fs := lookupSpec ps p.1
      if (fs.bind FieldSpec.persist) ≠ some false then
        match fs.bind FieldSpec.encoder with
        | some e => objSet d p.1 (e.decode p.2)
        | none => objSet d p.1 p.2
      else d)
    []

/-- Embedding of the bind-value extraction of saveToDb in the sqlite
adapter (src/test/sqlite-adapter.ts): the values written to storage are
fields.map(field => model.get(field)), the raw in-memory values. -/
def sqliteBindValues (m : ModelState) (fields : List String) : List (Option Value) :=
  fields.map (fun f => Model.get m f)

/-
Helper lemmas about the JavaScript object and Set primitives.
-/

/-- Reading the key just written returns the written value. -/
theorem objGet_objSet_self (l : List (String × Value)) (k : String) (v : Value) :
    objGet (objSet l k v) k = some v := by
  induction l with
  | nil => simp [objSet, objGet]
  | cons p t ih =>
    obtain ⟨k1, v1⟩ := p
    by_cases h : k1 = k
    · subst h
      simp [objSet, objGet]
    · simp only [objSet, if_neg h, objGet, List.find?]
      have hb : (k1 == k) = false := by simpa using h
      simpa [objGet, hb] using ih

/-- Writing one key leaves every other key unchanged. -/
theorem objGet_objSet_ne (l : List (String × Value)) (k k2 : String) (v : Value)
    (h : k2 ≠ k) : objGet (objSet l k v) k2 = objGet l k2 := by
  induction l with
  | nil =>
    have hb : (k == k2) = false := by simpa using (Ne.symm h)
    simp [objSet, objGet, hb]
  | cons p t ih =>
    obtain ⟨k1, v1⟩ := p
    by_cases hk : k1 = k
    · subst hk
      have hb : (k1 == k2) = false := by simpa using (Ne.symm h)
      simp [objSet, objGet, hb]
    · simp only [objSet, if_neg hk, objGet, List.find?]
      by_cases hk2 : k1 = k2
      · subst hk2
        simp [objGet]
      · have hb : (k1 == k2) = false := by simpa using hk2
        simpa [objGet, hb] using ih

/-- Membership in the Set after Set.add. -/
theorem mem_setAdd {s : List String} {f a : String} :
    a ∈ setAdd s f ↔ a ∈ s ∨ a = f := by
  by_cases h : f ∈ s
  · simp only [setAdd, if_pos h]
    constructor
    · exact Or.inl
    · rintro (ha | rfl)
      · exact ha
      · exact h
  · simp [setAdd, if_neg h]

/-- Folding object writes over a change list leaves absent keys unchanged. -/
theorem objGet_foldl_objSet_not_mem (changes : List (String × Value))
    (d : List (String × Value)) (k : String) (h : k ∉ changes.map Prod.fst) :
    objGet (changes.foldl (fun d p => objSet d p.1 p.2) d) k = objGet d k := by
  induction changes generalizing d with
  | nil => rfl
  | cons p t ih =>
    simp only [List.map_cons, List.mem_cons, not_or] at h
    rw [List.foldl_cons, ih _ h.2, objGet_objSet_ne _ _ _ _ h.1]

/-- Folding object writes over a change list with pairwise distinct keys
stores each listed value at its key. -/
theorem objGet_foldl_objSet_nodup (changes : List (String × Value))
    (d : List (String × Value)) (k : String) (v : Value) :
    (changes.map Prod.fst).Nodup → (k, v) ∈ changes →
    objGet (changes.foldl (fun d p => objSet d p.1 p.2) d) k = some v := by
  induction changes generalizing d with
  | nil =>
    intro _ hm
    cases hm
  | cons p t ih =>
    intro hnd hm
    rw [List.foldl_cons]
    simp only [List.map_cons, List.nodup_cons] at hnd
    rcases List.mem_cons.mp hm with heq | hmem
    · subst heq
      rw [objGet_foldl_objSet_not_mem t _ k hnd.1, objGet_objSet_self]
    · exact ih _ hnd.2 hmem

/-- Membership in the change set after folding Set.add over a change list. -/
theorem mem_foldl_setAdd (changes : List (String × Value)) (s : List String)
    (a : String) :
    a ∈ changes.foldl (fun s p => setAdd s p.1) s ↔ a ∈ s ∨ a ∈ changes.map Prod.fst := by
  induction changes generalizing s with
  | nil => simp
  | cons p t ih =>
    rw [List.foldl_cons, ih]
    simp [mem_setAdd, or_assoc]

/-- Hook trace of any save call: either no hook ran or exactly the
postSave hook ran.  The preSave hook never appears. -/
theorem save_hooks_nil_or_postSave (ps : List (String × FieldSpec)) (gs : GlobalSpec)
    (adapter : ModelState → List String → SaveResult) (m : ModelState) :
    (Model.save ps gs adapter m).hooks = [] ∨
    (Model.save ps gs adapter m).hooks = ["postSave"] := by
  by_cases hc : (m.persisted && (outboundFields ps m).isEmpty) = true
  · left
    simp [Model.save, hc]
  · rw [Bool.not_eq_true] at hc
    by_cases hs : (adapter m (outboundFields ps m)).success = true
    · cases hps : gs.postSave with
      | none =>
        left
        simp [Model.save, hc, hs, hps]
      | some h =>
        right
        simp [Model.save, hc, hs, hps]
    · left
      rw [Bool.not_eq_true] at hs
      simp [Model.save, hc, hs]

/-- C1: a save on a persisted entity whose changed fields, after removing
the fields whose spec declares persist = false, are empty returns the same
entity at once: no getContext call, no saveToDb dispatch, no hook, and the
entity state (fields, changedFields, persisted) is returned unchanged. -/
theorem c1_noop_save_short_circuit
    (ps : List (String × FieldSpec)) (gs : GlobalSpec)
    (adapter : ModelState → List String → SaveResult) (m : ModelState)
    (hp : m.persisted = true) (hf : outboundFields ps m = []) :
    Model.save ps gs adapter m =
      { result := .ok m, getContextCalls := 0, dispatched := [], hooks := [],
        savedState := some m, entity := m } := by
  simp [Model.save, hp, hf]

def c1ps : List (String × FieldSpec) := [("secretKey", { persist := some false })]

def c1m : ModelState :=
  { data := [("secretKey", Value.vstr "s")], changedFields := ["secretKey"],
    persisted := true, id := some (Value.vstr "i") }

/-- Witness for C1 at a concrete persisted entity whose only changed field
is excluded from persistence. -/
theorem c1_noop_save_short_circuit_witness :
    Model.save c1ps {} (fun _ _ => { success := true, inserted := false, id := none }) c1m =
      { result := .ok c1m, getContextCalls := 0, dispatched := [], hooks := [],
        savedState := some c1m, entity := c1m } :=
  c1_noop_save_short_circuit c1ps {} _ c1m rfl (by decide)

/-- C2: the claim that save invokes a configured preSave hook before
dispatch fails on the code.  The save of src/src/model.ts never reads the
preSave hook: its trace is identical with the hook erased, the hook list
never contains preSave, and at a concrete input whose preSave hook bumps
the count field the saved entity still carries the old count, while the
repository test advanced-model.test.ts asserts the bumped value. -/
theorem c2_preSave_never_invoked :
    (∀ (ps : List (String × FieldSpec)) (gs : GlobalSpec)
       (adapter : ModelState → List String → SaveResult) (m : ModelState),
       Model.save ps gs adapter m = Model.save ps { gs with preSave := none } adapter m) ∧
    (∀ (ps : List (String × FieldSpec)) (gs : GlobalSpec)
       (adapter : ModelState → List String → SaveResult) (m : ModelState),
       "preSave" ∉ (Model.save ps gs adapter m).hooks) ∧
    (Model.get
        (Model.save []
          { preSave := some (fun m => Model.set m "count" (Value.vnat 2)) }
          (fun _ _ => { success := true, inserted := true, id := some (Value.vstr "id1") })
          { data := [("count", Value.vnat 1)], changedFields := ["count"],
            persisted := false, id := none }).entity
        "count" = some (Value.vnat 1)) := by
  refine ⟨fun ps gs adapter m => ?_, fun ps gs adapter m => ?_, by decide⟩
  · cases gs
    rfl
  · rcases save_hooks_nil_or_postSave ps gs adapter m with h | h <;> simp [h]

/-- Concrete encoder with distinct in-memory and at-rest representations,
used to exhibit where the engine does or does not apply encoders. -/
def testEncoder : ValueEncoder where
  encode := fun _ => Value.vstr "enc"
  decode := fun _ => Value.vstr "dec"

/-- C3: the claim that save hands the adapter encoder.encode of each
outbound field value fails on the code.  The save of src/src/model.ts
passes the model itself plus the field names to saveToDb; the sqlite
adapter extracts the raw in-memory values (fields.map(f => model.get(f))),
so the value reaching storage is the raw value and not its encoded
at-rest representation. -/
theorem c3_encoder_not_applied_on_save :
    (Model.save [("metadata", { encoder := some testEncoder })] {}
        (fun _ _ => { success := true, inserted := true, id := some (Value.vstr "id1") })
        { data := [("metadata", Value.vstr "raw")], changedFields := ["metadata"],
          persisted := false, id := none }).dispatched =
      [({ data := [("metadata", Value.vstr "raw")], changedFields := ["metadata"],
          persisted := false, id := none }, ["metadata"])] ∧
    sqliteBindValues
        { data := [("metadata", Value.vstr "raw")], changedFields := ["metadata"],
          persisted := false, id := none } ["metadata"] = [some (Value.vstr "raw")] ∧
    testEncoder.encode (Value.vstr "raw") ≠ Value.vstr "raw" := by
  refine ⟨by decide, by decide, by decide⟩

/-- Shape of the no-op branch of save: when the short-circuit condition of
line 178 holds the whole trace is inert. -/
theorem save_noop_shape (ps : List (String × FieldSpec)) (gs : GlobalSpec)
    (adapter : ModelState → List String → SaveResult) (m : ModelState)
    (hc : (m.persisted && (outboundFields ps m).isEmpty) = true) :
    Model.save ps gs adapter m =
      { result := .ok m, getContextCalls := 0, dispatched := [], hooks := [],
        savedState := some m, entity := m } := by
  simp [Model.save, hc]

/-- Dispatched calls of a save that is not the no-op short circuit: exactly
one saveToDb call, receiving the model and the outbound field list. -/
theorem save_dispatched_shape (ps : List (String × FieldSpec)) (gs : GlobalSpec)
    (adapter : ModelState → List String → SaveResult) (m : ModelState)
    (hc : (m.persisted && (outboundFields ps m).isEmpty) = false) :
    (Model.save ps gs adapter m).dispatched = [(m, outboundFields ps m)] := by
  by_cases hs : (adapter m (outboundFields ps m)).success = true
  · cases hps : gs.postSave <;> simp [Model.save, hc, hs, hps]
  · rw [Bool.not_eq_true] at hs
    simp [Model.save, hc, hs]

/-- Shape of the failure branch of save: the error is thrown before any
mutation of the entity, so the terminating state is the input state. -/
theorem save_failure_shape (ps : List (String × FieldSpec)) (gs : GlobalSpec)
    (adapter : ModelState → List String → SaveResult) (m : ModelState)
    (hc : (m.persisted && (outboundFields ps m).isEmpty) = false)
    (hs : (adapter m (outboundFields ps m)).success = false) :
    Model.save ps gs adapter m =
      { result := .error "Failed to save model to database", getContextCalls := 1,
        dispatched := [(m, outboundFields ps m)], hooks := [], savedState := none,
        entity := m } := by
  simp [Model.save, hc, hs]

/-- Engine state recorded after a successful dispatch, before any postSave
hook: the id is adopted when inserted, persisted is set and the change set
is cleared. -/
theorem save_savedState_shape (ps : List (String × FieldSpec)) (gs : GlobalSpec)
    (adapter : ModelState → List String → SaveResult) (m : ModelState)
    (hc : (m.persisted && (outboundFields ps m).isEmpty) = false)
    (hs : (adapter m (outboundFields ps m)).success = true) :
    (Model.save ps gs adapter m).savedState =
      some { (if (adapter m (outboundFields ps m)).inserted
              then { m with id := (adapter m (outboundFields ps m)).id } else m) with
             persisted := true, changedFields := [] } := by
  cases hps : gs.postSave <;> simp [Model.save, hc, hs, hps]

def c4ps : List (String × FieldSpec) :=
  [("secretKey", { persist := some false }),
   ("metadata", { encoder := some testEncoder })]

def c4row : List (String × Value) :=
  [("id", Value.vstr "r1"), ("secretKey", Value.vstr "leak"),
   ("metadata", Value.vstr "atrest")]

/-- C4: the claim that the entity reconstructed by the static load drops
persist = false columns and applies decoders fails on the code.  The load
of src/src/model.ts constructs the entity directly from the raw row: a
secretKey column present in the row materializes in the entity and the
declared decoder of metadata is not applied; only the persisted = true and
empty changedFields parts of the claim hold.  The dead fromRow helper of
the same file would have produced the claimed field map. -/
theorem c4_load_bypasses_row_reconstruction :
    Model.load {} (fun i => if i = Value.vstr "r1" then some c4row else none)
        (Value.vstr "r1") = some (Model.construct c4row true) ∧
    Model.get (Model.construct c4row true) "secretKey" = some (Value.vstr "leak") ∧
    Model.get (Model.construct c4row true) "metadata" = some (Value.vstr "atrest") ∧
    (Model.construct c4row true).persisted = true ∧
    (Model.construct c4row true).changedFields = [] ∧
    (Model.construct c4row true).id = some (Value.vstr "r1") ∧
    objGet (fromRowData c4ps c4row) "secretKey" = none ∧
    objGet (fromRowData c4ps c4row) "metadata" = some (Value.vstr "dec") := by
  refine ⟨rfl, by decide, by decide, by decide, by decide, by decide, by decide, by decide⟩

def c5ps : List (String × FieldSpec) := [("secretKey", { persist := some false })]

def c5m : ModelState :=
  { data := [("secretKey", Value.vstr "s")], changedFields := ["secretKey"],
    persisted := true, id := some (Value.vstr "i") }

/-- C5 counterexample: a save that completes successfully (the no-op short
circuit on a persisted entity whose only changed field has persist = false)
returns with getChangedFields() still nonempty, refuting the claim that
after any successful save the changed set is empty. -/
theorem c5_counterexample_noop_keeps_changed :
    (Model.save c5ps {} (fun _ _ => { success := true, inserted := false, id := none })
        c5m).result = .ok c5m ∧
    Model.getChangedFields
        (Model.save c5ps {} (fun _ _ => { success := true, inserted := false, id := none })
          c5m).entity = ["secretKey"] := by
  refine ⟨rfl, by decide⟩

/-- C5 amended: after any save that completes successfully, the engine
state (the state before a postSave hook replaces the returned entity) has
persisted = true and every remaining changed field has a spec declaring
persist = false; whenever the save dispatched to the adapter the changed
set is fully empty. -/
theorem c5_saved_state_changed_fields
    (ps : List (String × FieldSpec)) (gs : GlobalSpec)
    (adapter : ModelState → List String → SaveResult) (m : ModelState)
    (m2 : ModelState)
    (hsv : (Model.save ps gs adapter m).savedState = some m2) :
    m2.persisted = true ∧
    (∀ f ∈ m2.changedFields, persistOf ps f = some false) ∧
    ((Model.save ps gs adapter m).dispatched ≠ [] → m2.changedFields = []) := by
  by_cases hc : (m.persisted && (outboundFields ps m).isEmpty) = true
  · have hp : m.persisted = true := ((Bool.and_eq_true _ _).mp hc).1
    have hf : outboundFields ps m = [] := by
      have h2 := ((Bool.and_eq_true _ _).mp hc).2
      simpa [List.isEmpty_iff] using h2
    rw [save_noop_shape ps gs adapter m hc] at hsv
    obtain rfl : m = m2 := Option.some.inj hsv
    refine ⟨hp, ?_, ?_⟩
    · intro f hfm
      by_contra hne
      have hmem : f ∈ outboundFields ps m := by
        simp only [outboundFields, Model.getChangedFields, List.mem_filter]
        exact ⟨hfm, by simpa using hne⟩
      rw [hf] at hmem
      cases hmem
    · intro hd
      rw [save_noop_shape ps gs adapter m hc] at hd
      exact absurd rfl hd
  · rw [Bool.not_eq_true] at hc
    by_cases hs : (adapter m (outboundFields ps m)).success = true
    · rw [save_savedState_shape ps gs adapter m hc hs] at hsv
      obtain rfl := Option.some.inj hsv
      refine ⟨rfl, ?_, fun _ => rfl⟩
      intro f hfm
      simp at hfm
    · rw [Bool.not_eq_true] at hs
      rw [save_failure_shape ps gs adapter m hc hs] at hsv
      cases hsv

/-- Witness for the amended C5 at the concrete no-op input of the
counterexample: the returned state is persisted and its remaining changed
field secretKey indeed carries persist = false. -/
theorem c5_saved_state_changed_fields_witness :
    c5m.persisted = true ∧ persistOf c5ps "secretKey" = some false :=
  ⟨(c5_saved_state_changed_fields c5ps {}
      (fun _ _ => { success := true, inserted := false, id := none }) c5m c5m (by decide)).1,
   (c5_saved_state_changed_fields c5ps {}
      (fun _ _ => { success := true, inserted := false, id := none }) c5m c5m (by decide)).2.1
     "secretKey" (by decide)⟩

/-- Result of a successful dispatch is never the thrown error. -/
theorem save_result_not_error_of_success (ps : List (String × FieldSpec)) (gs : GlobalSpec)
    (adapter : ModelState → List String → SaveResult) (m : ModelState)
    (hc : (m.persisted && (outboundFields ps m).isEmpty) = false)
    (hs : (adapter m (outboundFields ps m)).success = true) (e : String) :
    (Model.save ps gs adapter m).result ≠ .error e := by
  cases hps : gs.postSave <;> simp [Model.save, hc, hs, hps]

def c6m : ModelState :=
  { data := [("name", Value.vstr "A")], changedFields := ["name"],
    persisted := false, id := none }

/-- C6: when the adapter reports success = false, save throws the failure
error; the entity terminates with its state exactly as before the call
(changedFields, persisted and id untouched, since every mutation in the
source sits after the throw), and the outbound field set of a retried save
is therefore the same one. -/
theorem c6_adapter_failure_raises_and_preserves_state
    (ps : List (String × FieldSpec)) (gs : GlobalSpec)
    (adapter : ModelState → List String → SaveResult) (m : ModelState)
    (hc : (m.persisted && (outboundFields ps m).isEmpty) = false)
    (hs : (adapter m (outboundFields ps m)).success = false) :
    (Model.save ps gs adapter m).result = .error "Failed to save model to database" ∧
    (Model.save ps gs adapter m).entity = m ∧
    (Model.save ps gs adapter m).dispatched = [(m, outboundFields ps m)] ∧
    outboundFields ps (Model.save ps gs adapter m).entity = outboundFields ps m := by
  rw [save_failure_shape ps gs adapter m hc hs]
  exact ⟨rfl, rfl, rfl, rfl⟩

/-- Witness for C6 at a concrete unpersisted entity and an adapter that
reports failure. -/
theorem c6_adapter_failure_witness :
    (Model.save [] {} (fun _ _ => { success := false, inserted := false, id := none })
        c6m).result = .error "Failed to save model to database" ∧
    (Model.save [] {} (fun _ _ => { success := false, inserted := false, id := none })
        c6m).entity = c6m :=
  ⟨(c6_adapter_failure_raises_and_preserves_state [] {} _ c6m (by decide) (by decide)).1,
   (c6_adapter_failure_raises_and_preserves_state [] {} _ c6m (by decide) (by decide)).2.1⟩

/-- C7: every saveToDb dispatch receives exactly the changed fields minus
the fields whose spec declares persist = false, and a field declaring
persist = false is never part of the outbound field list. -/
theorem c7_outbound_equals_changed_minus_nonpersisted
    (ps : List (String × FieldSpec)) (gs : GlobalSpec)
    (adapter : ModelState → List String → SaveResult) (m : ModelState) :
    ∀ p ∈ (Model.save ps gs adapter m).dispatched,
      p.2 = (Model.getChangedFields m).filter
        (fun f => decide (persistOf ps f ≠ some false)) ∧
      ∀ f, persistOf ps f = some false → f ∉ p.2 := by
  intro p hp
  by_cases hc : (m.persisted && (outboundFields ps m).isEmpty) = true
  · rw [save_noop_shape ps gs adapter m hc] at hp
    cases hp
  · rw [Bool.not_eq_true] at hc
    rw [save_dispatched_shape ps gs adapter m hc] at hp
    have hp2 : p = (m, outboundFields ps m) := by simpa using hp
    subst hp2
    refine ⟨rfl, ?_⟩
    intro f hf hmem
    have hmem2 : f ∈ outboundFields ps m := hmem
    simp only [outboundFields, Model.getChangedFields, List.mem_filter,
      decide_eq_true_eq] at hmem2
    exact hmem2.2 hf

def c7ps : List (String × FieldSpec) := [("secretKey", { persist := some false })]

def c7m : ModelState :=
  { data := [("name", Value.vstr "A"), ("secretKey", Value.vstr "s")],
    changedFields := ["name", "secretKey"], persisted := false, id := none }

/-- Witness for C7: at a concrete dispatching save the excluded field is
absent from the outbound list. -/
theorem c7_outbound_witness :
    ("secretKey" : String) ∉ ((c7m, outboundFields c7ps c7m) : ModelState × List String).2 :=
  ((c7_outbound_equals_changed_minus_nonpersisted c7ps {}
      (fun _ _ => { success := true, inserted := true, id := none }) c7m)
    (c7m, outboundFields c7ps c7m) (by decide)).2 "secretKey" (by decide)

/-- C8: set writes the value(s), adds exactly the named field(s) to
changedFields and leaves every other field, the persisted flag and the id
unchanged; put writes the same value(s) with changedFields exactly as it
was.  Both the single-key and the partial-map branches are covered; the
map branches assume the JavaScript-object property of pairwise distinct
keys. -/
theorem c8_set_put_semantics (m : ModelState) (k : String) (v : Value)
    (changes : List (String × Value)) (hnd : (changes.map Prod.fst).Nodup) :
    (Model.get (Model.set m k v) k = some v ∧
     (∀ k2, k2 ≠ k → Model.get (Model.set m k v) k2 = Model.get m k2) ∧
     (∀ f, f ∈ (Model.set m k v).changedFields ↔ f ∈ m.changedFields ∨ f = k) ∧
     (Model.set m k v).persisted = m.persisted ∧ (Model.set m k v).id = m.id) ∧
    (Model.get (Model.put m k v) k = some v ∧
     (∀ k2, k2 ≠ k → Model.get (Model.put m k v) k2 = Model.get m k2) ∧
     (Model.put m k v).changedFields = m.changedFields ∧
     (Model.put m k v).persisted = m.persisted ∧ (Model.put m k v).id = m.id) ∧
    ((∀ k2 v2, (k2, v2) ∈ changes → Model.get (Model.setMany m changes) k2 = some v2) ∧
     (∀ k2, k2 ∉ changes.map Prod.fst →
       Model.get (Model.setMany m changes) k2 = Model.get m k2) ∧
     (∀ f, f ∈ (Model.setMany m changes).changedFields ↔
       f ∈ m.changedFields ∨ f ∈ changes.map Prod.fst) ∧
     (Model.setMany m changes).persisted = m.persisted ∧
     (Model.setMany m changes).id = m.id) ∧
    ((∀ k2 v2, (k2, v2) ∈ changes → Model.get (Model.putMany m changes) k2 = some v2) ∧
     (∀ k2, k2 ∉ changes.map Prod.fst →
       Model.get (Model.putMany m changes) k2 = Model.get m k2) ∧
     (Model.putMany m changes).changedFields = m.changedFields ∧
     (Model.putMany m changes).persisted = m.persisted ∧
     (Model.putMany m changes).id = m.id) := by
  refine ⟨⟨objGet_objSet_self m.data k v, fun k2 h => objGet_objSet_ne m.data k k2 v h,
          fun f => mem_setAdd, rfl, rfl⟩,
         ⟨objGet_objSet_self m.data k v, fun k2 h => objGet_objSet_ne m.data k k2 v h,
          rfl, rfl, rfl⟩,
         ⟨fun k2 v2 hm => objGet_foldl_objSet_nodup changes m.data k2 v2 hnd hm,
          fun k2 hm => objGet_foldl_objSet_not_mem changes m.data k2 hm,
          fun f => mem_foldl_setAdd changes m.changedFields f,
          rfl, rfl⟩,
         ⟨fun k2 v2 hm => objGet_foldl_objSet_nodup changes m.data k2 v2 hnd hm,
          fun k2 hm => objGet_foldl_objSet_not_mem changes m.data k2 hm,
          rfl, rfl, rfl⟩⟩

def c8m : ModelState :=
  { data := [("a", Value.vnat 0)], changedFields := [], persisted := false, id := none }

/-- Witness for C8 at concrete field writes. -/
theorem c8_set_put_witness :
    Model.get (Model.set c8m "a" (Value.vnat 1)) "a" = some (Value.vnat 1) :=
  (c8_set_put_semantics c8m "a" (Value.vnat 1) [("b", Value.vnat 2)] (by decide)).1.1

def c9m : ModelState :=
  { data := [("name", Value.vstr "A")], changedFields := ["name"],
    persisted := true, id := some (Value.vstr "i") }

def c9m2 : ModelState :=
  { data := [("name", Value.vstr "A")], changedFields := [],
    persisted := true, id := some (Value.vstr "i") }

/-- C9: on a persisted entity every engine operation preserves the id,
provided the adapter honours its contract and reports inserted = false for
a persisted model: set, put, markChanged, markUnchanged and
clearChangedFields never touch the id, a completing save keeps it in the
recorded engine state, and a throwing save leaves the entity untouched. -/
theorem c9_persisted_id_stable
    (ps : List (String × FieldSpec)) (gs : GlobalSpec)
    (adapter : ModelState → List String → SaveResult) (m : ModelState)
    (k : String) (v : Value) (changes : List (String × Value))
    (hp : m.persisted = true)
    (had : ∀ fs, m.persisted = true → (adapter m fs).inserted = false) :
    (Model.set m k v).id = m.id ∧ (Model.setMany m changes).id = m.id ∧
    (Model.put m k v).id = m.id ∧ (Model.putMany m changes).id = m.id ∧
    (Model.markChanged m k).id = m.id ∧ (Model.markUnchanged m k).id = m.id ∧
    (Model.clearChangedFields m).id = m.id ∧
    (∀ m2, (Model.save ps gs adapter m).savedState = some m2 → m2.id = m.id) ∧
    (∀ e, (Model.save ps gs adapter m).result = .error e →
      (Model.save ps gs adapter m).entity = m) := by
  refine ⟨rfl, rfl, rfl, rfl, rfl, rfl, rfl, ?_, ?_⟩
  · intro m2 hsv
    by_cases hc : (m.persisted && (outboundFields ps m).isEmpty) = true
    · rw [save_noop_shape ps gs adapter m hc] at hsv
      obtain rfl : m = m2 := Option.some.inj hsv
      rfl
    · rw [Bool.not_eq_true] at hc
      by_cases hs : (adapter m (outboundFields ps m)).success = true
      · rw [save_savedState_shape ps gs adapter m hc hs] at hsv
        obtain rfl := Option.some.inj hsv
        simp [had (outboundFields ps m) hp]
      · rw [Bool.not_eq_true] at hs
        rw [save_failure_shape ps gs adapter m hc hs] at hsv
        cases hsv
  · intro e herr
    by_cases hc : (m.persisted && (outboundFields ps m).isEmpty) = true
    · rw [save_noop_shape ps gs adapter m hc] at herr
      cases herr
    · rw [Bool.not_eq_true] at hc
      by_cases hs : (adapter m (outboundFields ps m)).success = true
      · exact absurd herr (save_result_not_error_of_success ps gs adapter m hc hs e)
      · rw [Bool.not_eq_true] at hs
        rw [save_failure_shape ps gs adapter m hc hs]

/-- Witness for C9: the engine state after a successful update save on a
concrete persisted entity keeps the id. -/
theorem c9_persisted_id_witness : c9m2.id = c9m.id :=
  ((c9_persisted_id_stable [] {} (fun _ _ => { success := true, inserted := false, id := none })
      c9m "x" (Value.vnat 0) [] rfl (fun _ _ => rfl)).2.2.2.2.2.2.2.1) c9m2 (by decide)

/-- Reading a key from a record filtered on that very key returns nothing. -/
theorem objGet_filter_not_key (l : List (String × Value)) (k : String) :
    objGet (l.filter (fun p => !(p.1 == k))) k = none := by
  induction l with
  | nil => rfl
  | cons p t ih =>
    obtain ⟨k1, v1⟩ := p
    by_cases h : k1 = k
    · subst h
      simp [List.filter, ih]
    · have hb : (k1 == k) = false := by simpa using h
      simp [List.filter, hb, objGet, List.find?, ih]

/-- The filtered-out key never appears among the keys of the filtered
record. -/
theorem not_mem_map_fst_filter (l : List (String × Value)) (k : String) :
    k ∉ (l.filter (fun p => !(p.1 == k))).map Prod.fst := by
  intro h
  obtain ⟨p, hp, he⟩ := List.mem_map.mp h
  have hpred := List.of_mem_filter hp
  rw [he] at hpred
  simp at hpred

/-- Keys other than the filtered one survive the filter. -/
theorem mem_map_fst_filter (input : List (String × Value)) (k k2 : String)
    (h : k ∈ input.map Prod.fst) (hne : k ≠ k2) :
    k ∈ (input.filter (fun p => !(p.1 == k2))).map Prod.fst := by
  obtain ⟨p, hp, he⟩ := List.mem_map.mp h
  refine List.mem_map.mpr ⟨p, ?_, he⟩
  refine List.mem_filter.mpr ⟨hp, ?_⟩
  rw [show p.1 = k from he]
  simpa using hne

/-- C10: the constructor removes the id key from field storage in both
construction modes and exposes the supplied id only through the id
property: reading the id field returns nothing right after construction,
the id property carries the supplied value, and for an unpersisted
construction the name id is absent from changedFields while every other
supplied key is present. -/
theorem c10_constructor_strips_id (input : List (String × Value)) (persisted : Bool) :
    Model.get (Model.construct input persisted) "id" = none ∧
    (Model.construct input persisted).id = objGet input "id" ∧
    ("id" ∉ (Model.construct input false).changedFields ∧
     ∀ k, k ∈ input.map Prod.fst → k ≠ "id" →
       k ∈ (Model.construct input false).changedFields) := by
  refine ⟨?_, ?_, ?_, ?_⟩
  · cases persisted with
    | true =>
      exact objGet_filter_not_key input "id"
    | false =>
      show objGet ((input.filter (fun p => !(p.1 == "id"))).foldl
        (fun d p => objSet d p.1 p.2) []) "id" = none
      rw [objGet_foldl_objSet_not_mem _ _ _ (not_mem_map_fst_filter input "id")]
      rfl
  · cases persisted <;> rfl
  · intro h
    have hmem := (mem_foldl_setAdd _ [] "id").mp h
    rcases hmem with h0 | h1
    · cases h0
    · exact not_mem_map_fst_filter input "id" h1
  · intro k hk hne
    exact (mem_foldl_setAdd _ [] k).mpr (Or.inr (mem_map_fst_filter input k "id" hk hne))

/-- Witness for C10 at a concrete construction input carrying an id. -/
theorem c10_constructor_strips_id_witness :
    Model.get (Model.construct [("id", Value.vstr "x"), ("name", Value.vstr "A")] false)
      "id" = none ∧
    ("name" : String) ∈
      (Model.construct [("id", Value.vstr "x"), ("name", Value.vstr "A")] false).changedFields :=
  ⟨(c10_constructor_strips_id [("id", Value.vstr "x"), ("name", Value.vstr "A")] false).1,
   (c10_constructor_strips_id [("id", Value.vstr "x"), ("name", Value.vstr "A")] false).2.2.2
     "name" (by decide) (by decide)⟩
